import Mathlib

/-!
Verification of the spaced-repetition core: the SM-2 scheduling engine
(`SM2Algorithm` in `libs/shared/src/srs/algorithm.ts`) and the collection
manager (`StudyScheduler` in `libs/shared/src/srs/scheduler.ts`).

Modelling choices:
* JS `number` values used for ease factors and qualities become `ℚ`;
  intervals, repetition counts and counters become `ℤ`.
* `Math.round` is the Mathlib `round` function (round half toward positive infinity,
  like JS `Math.round`); `Number(x.toFixed(2))` becomes `roundTo2`.
* Timestamps are abstract `ℤ` instants (milliseconds); `setDate(+n)`
  becomes adding `n * dayMs`.  `new Date()` inside a method becomes an
  explicit `now` parameter.
* The two JS `Map`s of the scheduler become functions `String → Option _`;
  `Map.set` is pointwise functional update (silent overwrite, as in JS).
* A JS `throw` becomes an `Except.error` result paired with the scheduler
  state after the call (the JS object survives a throw unchanged).
-/

namespace SRS

/-- Rounding a rational to two decimal places: the source stores the ease
factor as `Number(newEaseFactor.toFixed(2))`. -/
def roundTo2 (x : ℚ) : ℚ := ((round (x * 100) : ℤ) : ℚ) / 100

/-- The `SRSCard` interface from `types.ts`. -/
structure SRSCard where
  id : String
  easeFactor : ℚ
  interval : ℤ
  repetition : ℤ
  lastReviewed : Option ℤ
  nextReview : ℤ
  totalReviews : ℤ
deriving DecidableEq

/-- The `ReviewResult` interface from `types.ts`. -/
structure ReviewResult where
  flashcardId : String
  quality : ℚ
  responseTime : ℚ
  correct : Bool
  reviewedAt : ℤ
deriving DecidableEq

/-- The `StudySession` interface from `types.ts`. -/
structure StudySession where
  id : String
  startTime : ℤ
  endTime : Option ℤ
  cardsReviewed : ℤ
  cardsCorrect : ℤ
  totalTime : ℤ
  results : List ReviewResult
deriving DecidableEq

/-- The fields of the `Partial<SRSCard>` returned by
`SM2Algorithm.calculateNext` (all fields except `id`). -/
structure CardUpdate where
  easeFactor : ℚ
  interval : ℤ
  repetition : ℤ
  lastReviewed : ℤ
  nextReview : ℤ
  totalReviews : ℤ
deriving DecidableEq

/-- Milliseconds in a day: `setDate(getDate() + n)` advances by `n` of these. -/
def dayMs : ℤ := 86400000

namespace SM2Algorithm

/-- The common tail of `calculateNext` (source lines 49-66): clamp the ease
factor into [1.3, 5.0], enforce the minimum interval of one day, schedule
`nextReview`, stamp `lastReviewed`, round the stored ease factor to two
decimals and bump `totalReviews`. -/
def mkUpdate (card : SRSCard) (ef : ℚ) (itv : ℤ) (rep : ℤ) (now : ℤ) : CardUpdate :=
  let newEaseFactor := max (13/10) (min 5 ef)
  let newInterval := max 1 itv
  { easeFactor := roundTo2 newEaseFactor
    interval := newInterval
    repetition := rep
    lastReviewed := now
    nextReview := now + newInterval * dayMs
    totalReviews := card.totalReviews + 1 }

/-- `SM2Algorithm.calculateNext(card, quality)` with the ambient
`new Date()` made explicit as `now`. -/
def calculateNext (card : SRSCard) (quality : ℚ) (now : ℤ) : CardUpdate :=
  if 3 ≤ quality then
    let newInterval : ℤ :=
      if card.repetition = 0 then 1
      else if card.repetition = 1 then 6
      else round ((card.interval : ℚ) * card.easeFactor)
    mkUpdate card
      (card.easeFactor + (1/10 - (5 - quality) * (2/25 + (5 - quality) * (1/50))))
      newInterval (card.repetition + 1) now
  else
    mkUpdate card (max (13/10) (card.easeFactor - 1/5)) 1 0 now

/-- `SM2Algorithm.createNewCard(id)` with `new Date()` explicit. -/
def createNewCard (id : String) (now : ℤ) : SRSCard :=
  { id := id
    easeFactor := 5/2
    interval := 1
    repetition := 0
    lastReviewed := none
    nextReview := now
    totalReviews := 0 }

end SM2Algorithm

/-- The spread `{ ...card, ...updates }` in `StudyScheduler.submitReview`:
each updated field replaces the card field; `id` is not in the update and
is kept from the card. -/
def applyUpdate (card : SRSCard) (u : CardUpdate) : SRSCard :=
  { id := card.id
    easeFactor := u.easeFactor
    interval := u.interval
    repetition := u.repetition
    lastReviewed := some u.lastReviewed
    nextReview := u.nextReview
    totalReviews := u.totalReviews }

/-- One complete review of a single card: compute the SM-2 delta and merge
it back, as `submitReview` does for the owned card. -/
def reviewStep (q : ℚ) (now : ℤ) (card : SRSCard) : SRSCard :=
  applyUpdate card (SM2Algorithm.calculateNext card q now)

/-- Apply a finite sequence of reviews, each a (quality, time) pair. -/
def applyReviews (rs : List (ℚ × ℤ)) (card : SRSCard) : SRSCard :=
  rs.foldl (fun c r => reviewStep r.1 r.2 c) card

/-- The `StudyScheduler` class state: its two private `Map`s. -/
structure StudyScheduler where
  cards : String → Option SRSCard
  sessions : String → Option StudySession

/-- A freshly constructed scheduler: both maps empty. -/
def StudyScheduler.empty : StudyScheduler :=
  { cards := fun _ => none, sessions := fun _ => none }

namespace StudyScheduler

/-- `addCard(id)`: build the default card and `Map.set` it (silently
overwriting any card already stored under `id`). -/
def addCard (m : StudyScheduler) (id : String) (now : ℤ) : SRSCard × StudyScheduler :=
  let card := SM2Algorithm.createNewCard id now
  (card, { m with cards := fun k => if k = id then some card else m.cards k })

/-- `startStudySession()`: the id is the string `session_` followed by
`Date.now()`; the open session is stored under that id. -/
def startStudySession (m : StudyScheduler) (now : ℤ) : StudySession × StudyScheduler :=
  let session : StudySession :=
    { id := "session_" ++ toString now
      startTime := now
      endTime := none
      cardsReviewed := 0
      cardsCorrect := 0
      totalTime := 0
      results := [] }
  (session,
    { m with sessions := fun k => if k = session.id then some session else m.sessions k })

/-- `submitReview(sessionId, result)`: throws if the session id or the
card id is unknown; otherwise merges the SM-2 delta into the card, appends
the result, bumps `cardsReviewed`, and bumps `cardsCorrect` exactly when
the caller-supplied `result.correct` flag is true. -/
def submitReview (m : StudyScheduler) (sessionId : String) (result : ReviewResult)
    (now : ℤ) : Except String (SRSCard × StudySession) × StudyScheduler :=
  match m.sessions sessionId with
  | none => (.error ("Study session " ++ sessionId ++ " not found"), m)
  | some session =>
    match m.cards result.flashcardId with
    | none => (.error ("Card " ++ result.flashcardId ++ " not found"), m)
    | some card =>
      let updates := SM2Algorithm.calculateNext card result.quality now
      let updatedCard := applyUpdate card updates
      let newSession : StudySession :=
        { session with
          results := session.results ++ [result]
          cardsReviewed := session.cardsReviewed + 1
          cardsCorrect := session.cardsCorrect + (if result.correct then 1 else 0) }
      (.ok (updatedCard, newSession),
        { cards := fun k => if k = card.id then some updatedCard else m.cards k
          sessions := fun k => if k = sessionId then some newSession else m.sessions k })

/-- `endStudySession(sessionId)`: throws only if the id is unknown;
otherwise sets `endTime = now` and `totalTime = endTime - startTime`
(even if the session was already ended). -/
def endStudySession (m : StudyScheduler) (sessionId : String) (now : ℤ) :
    Except String StudySession × StudyScheduler :=
  match m.sessions sessionId with
  | none => (.error ("Study session " ++ sessionId ++ " not found"), m)
  | some session =>
    let closed : StudySession :=
      { session with endTime := some now, totalTime := now - session.startTime }
    (.ok closed,
      { m with sessions := fun k => if k = sessionId then some closed else m.sessions k })

end StudyScheduler

/-- The Card domain invariant of the data model: ease factor in [1.3, 5.0]
and interval at least one day. -/
def CardBounds (c : SRSCard) : Prop :=
  13/10 ≤ c.easeFactor ∧ c.easeFactor ≤ 5 ∧ 1 ≤ c.interval

/-- The card obtained from a default card by `n` successive quality-4
reviews (the progression scenario). -/
def q4Card : ℕ → SRSCard
  | 0 => SM2Algorithm.createNewCard "card" 0
  | n + 1 => reviewStep 4 0 (q4Card n)

/-- A review of card `c` with quality 5 whose caller-supplied `correct`
flag is nevertheless false. -/
def rQ5 : ReviewResult :=
  { flashcardId := "c", quality := 5, responseTime := 0, correct := false, reviewedAt := 0 }

/-- An open study session with id `s`. -/
def openS : StudySession :=
  { id := "s", startTime := 0, endTime := none, cardsReviewed := 0, cardsCorrect := 0
    totalTime := 0, results := [] }

/-- The same session after being closed at time 5. -/
def closedS : StudySession :=
  { openS with endTime := some 5, totalTime := 5 }

/-- A scheduler owning one default card `c` and one open session `s`. -/
def oneCardM : StudyScheduler :=
  { cards := fun k => if k = "c" then some (SM2Algorithm.createNewCard "c" 0) else none
    sessions := fun k => if k = "s" then some openS else none }

/-- A scheduler owning one default card `c` and one already-closed session `s`. -/
def closedM : StudyScheduler :=
  { oneCardM with sessions := fun k => if k = "s" then some closedS else none }

/-- A card that has already been studied: its state differs from a fresh
default card in every scheduling field. -/
def vetCard : SRSCard :=
  { id := "c", easeFactor := 2, interval := 3, repetition := 2, lastReviewed := some 1
    nextReview := 9, totalReviews := 5 }

/-- A scheduler already owning `vetCard` under its id `c`. -/
def vetM : StudyScheduler :=
  { cards := fun k => if k = "c" then some vetCard else none, sessions := fun _ => none }

lemma roundTo2_bounds {y : ℚ} (h1 : 13/10 ≤ y) (h2 : y ≤ 5) :
    13/10 ≤ roundTo2 y ∧ roundTo2 y ≤ 5 := by
  have hl := sub_half_lt_round (y * 100)
  have hu := round_le_add_half (y * 100)
  have hl2 : (130 : ℤ) ≤ round (y * 100) := by
    have h3 : (129 : ℚ) < ((round (y * 100) : ℤ) : ℚ) := by linarith
    have h4 : (129 : ℤ) < round (y * 100) := by exact_mod_cast h3
    omega
  have hu2 : round (y * 100) ≤ (500 : ℤ) := by
    have h3 : ((round (y * 100) : ℤ) : ℚ) < 501 := by linarith
    have h4 : round (y * 100) < (501 : ℤ) := by exact_mod_cast h3
    omega
  have hlq : (130 : ℚ) ≤ ((round (y * 100) : ℤ) : ℚ) := by exact_mod_cast hl2
  have huq : ((round (y * 100) : ℤ) : ℚ) ≤ 500 := by exact_mod_cast hu2
  unfold roundTo2
  constructor <;> linarith

lemma mkUpdate_bounds (card : SRSCard) (ef : ℚ) (itv rep now : ℤ) :
    13/10 ≤ (SM2Algorithm.mkUpdate card ef itv rep now).easeFactor ∧
    (SM2Algorithm.mkUpdate card ef itv rep now).easeFactor ≤ 5 ∧
    1 ≤ (SM2Algorithm.mkUpdate card ef itv rep now).interval := by
  have h1 : 13/10 ≤ max (13/10) (min 5 ef) := le_max_left _ _
  have h2 : max (13/10) (min 5 ef) ≤ 5 := max_le (by norm_num) (min_le_left _ _)
  have hb := roundTo2_bounds h1 h2
  refine ⟨?_, ?_, ?_⟩
  · simpa [SM2Algorithm.mkUpdate] using hb.1
  · simpa [SM2Algorithm.mkUpdate] using hb.2
  · simp [SM2Algorithm.mkUpdate, le_max_iff]

lemma calculateNext_bounds (card : SRSCard) (q : ℚ) (now : ℤ) :
    13/10 ≤ (SM2Algorithm.calculateNext card q now).easeFactor ∧
    (SM2Algorithm.calculateNext card q now).easeFactor ≤ 5 ∧
    1 ≤ (SM2Algorithm.calculateNext card q now).interval := by
  unfold SM2Algorithm.calculateNext
  by_cases h : (3 : ℚ) ≤ q
  · simp only [if_pos h]
    exact mkUpdate_bounds ..
  · simp only [if_neg h]
    exact mkUpdate_bounds ..

lemma reviewStep_bounds (q : ℚ) (now : ℤ) (c : SRSCard) :
    CardBounds (reviewStep q now c) := by
  simpa [CardBounds, reviewStep, applyUpdate] using calculateNext_bounds c q now

lemma applyReviews_bounds (rs : List (ℚ × ℤ)) (c : SRSCard) (hc : CardBounds c) :
    CardBounds (applyReviews rs c) := by
  induction rs generalizing c with
  | nil => exact hc
  | cons r rs ih => exact ih _ (reviewStep_bounds r.1 r.2 c)

/-- Claim C1: for a default card (easeFactor 2.5, interval 1, repetition 0)
the engine transition with quality 4 yields repetition 1, interval 1 and an
unchanged ease factor of 2.5; with quality 5 the ease factor strictly
exceeds 2.5; with quality 0 it yields repetition 0, interval 1 and ease
factor 2.3. -/
theorem default_card_literal_scenario :
    (SM2Algorithm.calculateNext (SM2Algorithm.createNewCard "c" 0) 4 0).repetition = 1 ∧
    (SM2Algorithm.calculateNext (SM2Algorithm.createNewCard "c" 0) 4 0).interval = 1 ∧
    (SM2Algorithm.calculateNext (SM2Algorithm.createNewCard "c" 0) 4 0).easeFactor = 5/2 ∧
    5/2 < (SM2Algorithm.calculateNext (SM2Algorithm.createNewCard "c" 0) 5 0).easeFactor ∧
    (SM2Algorithm.calculateNext (SM2Algorithm.createNewCard "c" 0) 0 0).repetition = 0 ∧
    (SM2Algorithm.calculateNext (SM2Algorithm.createNewCard "c" 0) 0 0).interval = 1 ∧
    (SM2Algorithm.calculateNext (SM2Algorithm.createNewCard "c" 0) 0 0).easeFactor = 23/10 := by
  norm_num [SM2Algorithm.calculateNext, SM2Algorithm.mkUpdate, roundTo2,
    SM2Algorithm.createNewCard, round_eq, max_def, min_def]

/-- Claim C2: every card reachable from the default card by a finite
sequence of reviews with qualities in 0..5 (each review at an arbitrary
time, including arbitrarily long sequences of quality-0 reviews) satisfies
1.3 ≤ easeFactor ≤ 5.0 and interval ≥ 1. -/
theorem reachable_card_bounds (rs : List (ℚ × ℤ)) (id : String) (t0 : ℤ)
    (hq : ∀ r ∈ rs, 0 ≤ r.1 ∧ r.1 ≤ 5) :
    13/10 ≤ (applyReviews rs (SM2Algorithm.createNewCard id t0)).easeFactor ∧
    (applyReviews rs (SM2Algorithm.createNewCard id t0)).easeFactor ≤ 5 ∧
    1 ≤ (applyReviews rs (SM2Algorithm.createNewCard id t0)).interval := by
  have hbase : CardBounds (SM2Algorithm.createNewCard id t0) := by
    refine ⟨?_, ?_, ?_⟩ <;> norm_num [SM2Algorithm.createNewCard]
  exact applyReviews_bounds rs _ hbase

/-- Witness for claim C2: four quality-0 reviews of a default card leave
its ease factor within bounds and its interval at least 1. -/
theorem reachable_card_bounds_witness :
    13/10 ≤ (applyReviews [(0, 0), (0, 0), (0, 0), (0, 0)]
        (SM2Algorithm.createNewCard "c" 0)).easeFactor ∧
    (applyReviews [(0, 0), (0, 0), (0, 0), (0, 0)]
        (SM2Algorithm.createNewCard "c" 0)).easeFactor ≤ 5 ∧
    1 ≤ (applyReviews [(0, 0), (0, 0), (0, 0), (0, 0)]
        (SM2Algorithm.createNewCard "c" 0)).interval :=
  reachable_card_bounds [(0, 0), (0, 0), (0, 0), (0, 0)] "c" 0 (by norm_num)

/-- Claim C9: for every input card and every rational quality value, also
far outside the documented 0..5 range, the engine transition is total and
its result satisfies 1.3 ≤ easeFactor ≤ 5.0 and interval ≥ 1, because the
clamps run unconditionally after both branches. -/
theorem calculateNext_total_bounds (card : SRSCard) (q : ℚ) (now : ℤ) :
    13/10 ≤ (SM2Algorithm.calculateNext card q now).easeFactor ∧
    (SM2Algorithm.calculateNext card q now).easeFactor ≤ 5 ∧
    1 ≤ (SM2Algorithm.calculateNext card q now).interval :=
  calculateNext_bounds card q now

lemma round_two_half_gt {i : ℤ} (hi : 1 ≤ i) : i < round ((i : ℚ) * (5/2)) := by
  have h := sub_half_lt_round ((i : ℚ) * (5/2))
  have hiq : (1 : ℚ) ≤ (i : ℚ) := by exact_mod_cast hi
  have h2 : (i : ℚ) < ((round ((i : ℚ) * (5/2)) : ℤ) : ℚ) := by linarith
  exact_mod_cast h2

lemma reviewStep4_step (c : SRSCard) (hEF : c.easeFactor = 5/2) (hrep : 2 ≤ c.repetition)
    (hitv : 1 ≤ c.interval) :
    (reviewStep 4 0 c).easeFactor = 5/2 ∧
    (reviewStep 4 0 c).repetition = c.repetition + 1 ∧
    (reviewStep 4 0 c).interval = round ((c.interval : ℚ) * (5/2)) := by
  have h0 : ¬ c.repetition = 0 := by omega
  have h1 : ¬ c.repetition = 1 := by omega
  have hq : (3 : ℚ) ≤ 4 := by norm_num
  have hr := round_two_half_gt hitv
  have hr1 : (1 : ℤ) ≤ round ((c.interval : ℚ) * (5/2)) := by omega
  refine ⟨?_, ?_, ?_⟩
  · simp only [reviewStep, applyUpdate, SM2Algorithm.calculateNext, SM2Algorithm.mkUpdate,
      if_pos hq, if_neg h0, if_neg h1, hEF]
    norm_num [roundTo2, round_eq, max_def, min_def]
  · simp only [reviewStep, applyUpdate, SM2Algorithm.calculateNext, SM2Algorithm.mkUpdate,
      if_pos hq, if_neg h0, if_neg h1, hEF]
  · simp only [reviewStep, applyUpdate, SM2Algorithm.calculateNext, SM2Algorithm.mkUpdate,
      if_pos hq, if_neg h0, if_neg h1, hEF]
    exact max_eq_right hr1

lemma q4_inv (n : ℕ) (hn : 2 ≤ n) :
    (q4Card n).easeFactor = 5/2 ∧ (q4Card n).repetition = (n : ℤ) ∧
    6 ≤ (q4Card n).interval := by
  induction n, hn using Nat.le_induction with
  | base =>
    refine ⟨?_, ?_, ?_⟩ <;>
      norm_num [q4Card, reviewStep, applyUpdate, SM2Algorithm.calculateNext,
        SM2Algorithm.mkUpdate, roundTo2, SM2Algorithm.createNewCard, round_eq,
        max_def, min_def]
  | succ n hn ih =>
    obtain ⟨hEF, hrep, hitv⟩ := ih
    have hrep2 : 2 ≤ (q4Card n).repetition := by
      rw [hrep]; exact_mod_cast hn
    have hi1 : 1 ≤ (q4Card n).interval := by omega
    obtain ⟨hEF2, hrep3, hitv2⟩ := reviewStep4_step _ hEF hrep2 hi1
    have hgt := round_two_half_gt hi1
    refine ⟨hEF2, ?_, ?_⟩
    · show (reviewStep 4 0 (q4Card n)).repetition = ((n + 1 : ℕ) : ℤ)
      rw [hrep3, hrep]; push_cast; ring
    · show 6 ≤ (reviewStep 4 0 (q4Card n)).interval
      rw [hitv2]; omega

/-- Claim C7: starting from a default card, successive quality-4 reviews
produce the interval values 1, 6 and 15 = round(6 × 2.5), and from the
second review onward each review strictly increases the interval. -/
theorem quality4_interval_progression (n : ℕ) (hn : 2 ≤ n) :
    (q4Card 1).interval = 1 ∧ (q4Card 2).interval = 6 ∧ (q4Card 3).interval = 15 ∧
    (q4Card n).interval < (q4Card (n + 1)).interval := by
  obtain ⟨hEF, hrep, hitv⟩ := q4_inv n hn
  have hrep2 : 2 ≤ (q4Card n).repetition := by
    rw [hrep]; exact_mod_cast hn
  have hi1 : 1 ≤ (q4Card n).interval := by omega
  obtain ⟨hEF2, hrep3, hitv2⟩ := reviewStep4_step _ hEF hrep2 hi1
  have hgt := round_two_half_gt hi1
  refine ⟨?_, ?_, ?_, ?_⟩
  · norm_num [q4Card, reviewStep, applyUpdate, SM2Algorithm.calculateNext,
      SM2Algorithm.mkUpdate, roundTo2, SM2Algorithm.createNewCard, round_eq,
      max_def, min_def]
  · norm_num [q4Card, reviewStep, applyUpdate, SM2Algorithm.calculateNext,
      SM2Algorithm.mkUpdate, roundTo2, SM2Algorithm.createNewCard, round_eq,
      max_def, min_def]
  · norm_num [q4Card, reviewStep, applyUpdate, SM2Algorithm.calculateNext,
      SM2Algorithm.mkUpdate, roundTo2, SM2Algorithm.createNewCard, round_eq,
      max_def, min_def]
  · show (q4Card n).interval < (reviewStep 4 0 (q4Card n)).interval
    rw [hitv2]; omega

/-- Witness for claim C7 at n = 2: the literal intervals hold and the
third quality-4 review strictly increases the interval over the second. -/
theorem quality4_interval_progression_witness :
    (q4Card 1).interval = 1 ∧ (q4Card 2).interval = 6 ∧ (q4Card 3).interval = 15 ∧
    (q4Card 2).interval < (q4Card 3).interval :=
  quality4_interval_progression 2 (by norm_num)

/-- Counterexample to claim C3: a review with quality 5 but a false
caller-supplied `correct` flag is accepted and leaves `cardsCorrect` at 0,
so the counter does not follow the quality ≥ 3 predicate. -/
theorem submitReview_quality_not_consulted :
    (3 : ℚ) ≤ rQ5.quality ∧
    ∃ uc s2, (oneCardM.submitReview "s" rQ5 0).1 = .ok (uc, s2) ∧
      s2.cardsReviewed = 1 ∧ s2.cardsCorrect = 0 := by
  constructor
  · norm_num [rQ5]
  · exact ⟨_, _, rfl, rfl, rfl⟩

/-- Claim C3 (amended): whenever the session and the card exist,
submitReview succeeds, increments `cardsReviewed` by one, and increments
`cardsCorrect` exactly when the caller-supplied `correct` flag is true
(the quality value is not consulted for this counter). -/
theorem submitReview_counts_by_flag (m : StudyScheduler) (sid : String) (r : ReviewResult)
    (now : ℤ) (s : StudySession) (card : SRSCard)
    (hs : m.sessions sid = some s) (hc : m.cards r.flashcardId = some card) :
    ∃ uc s2, (m.submitReview sid r now).1 = .ok (uc, s2) ∧
      s2.cardsReviewed = s.cardsReviewed + 1 ∧
      s2.cardsCorrect = s.cardsCorrect + (if r.correct then 1 else 0) := by
  unfold StudyScheduler.submitReview
  rw [hs, hc]
  exact ⟨_, _, rfl, rfl, rfl⟩

/-- Witness for the amended claim C3 on a concrete scheduler and review. -/
theorem submitReview_counts_by_flag_witness :
    ∃ uc s2, (oneCardM.submitReview "s" rQ5 0).1 = .ok (uc, s2) ∧
      s2.cardsReviewed = openS.cardsReviewed + 1 ∧
      s2.cardsCorrect = openS.cardsCorrect + (if rQ5.correct then 1 else 0) :=
  submitReview_counts_by_flag oneCardM "s" rQ5 0 openS
    (SM2Algorithm.createNewCard "c" 0) rfl rfl

/-- Counterexample to claim C4: a session that is already closed (endTime
set) still accepts submitReview and endStudySession; neither call fails
with SessionNotFound. -/
theorem closed_session_accepts_review :
    closedM.sessions "s" = some closedS ∧ closedS.endTime = some 5 ∧
    (∃ v, (closedM.submitReview "s" rQ5 10).1 = .ok v) ∧
    (∃ v, (closedM.endStudySession "s" 10).1 = .ok v) :=
  ⟨rfl, rfl, ⟨_, rfl⟩, ⟨_, rfl⟩⟩

/-- Claim C4 (amended): submitReview and endSession fail with
SessionNotFound only when the session id is absent from the map; a session
that is present succeeds in both calls whether or not its endTime is
already set, and endSession overwrites endTime with the current time. -/
theorem present_session_never_rejected (m : StudyScheduler) (sid : String) (r : ReviewResult)
    (now : ℤ) (s : StudySession) (card : SRSCard)
    (hs : m.sessions sid = some s) (hc : m.cards r.flashcardId = some card) :
    (∃ v, (m.submitReview sid r now).1 = .ok v) ∧
    (m.endStudySession sid now).1 =
      .ok { s with endTime := some now, totalTime := now - s.startTime } := by
  constructor
  · unfold StudyScheduler.submitReview
    rw [hs, hc]
    exact ⟨_, rfl⟩
  · unfold StudyScheduler.endStudySession
    rw [hs]

/-- Witness for the amended claim C4, instantiated at a closed session. -/
theorem present_session_never_rejected_witness :
    (∃ v, (closedM.submitReview "s" rQ5 10).1 = .ok v) ∧
    (closedM.endStudySession "s" 10).1 =
      .ok { closedS with endTime := some 10, totalTime := 10 - closedS.startTime } :=
  present_session_never_rejected closedM "s" rQ5 10 closedS
    (SM2Algorithm.createNewCard "c" 0) rfl rfl

/-- Counterexample to claim C5: adding a card whose id is already present
does not fail with DuplicateId; it silently replaces the stored card with
a fresh default one, changing its state. -/
theorem addCard_duplicate_overwrites_cex :
    vetM.cards "c" = some vetCard ∧
    (vetM.addCard "c" 7).2.cards "c" = some (SM2Algorithm.createNewCard "c" 7) ∧
    SM2Algorithm.createNewCard "c" 7 ≠ vetCard := by
  refine ⟨rfl, by simp [StudyScheduler.addCard], ?_⟩
  intro h
  have h5 := congrArg SRSCard.totalReviews h
  simp [SM2Algorithm.createNewCard, vetCard] at h5

/-- Claim C5 (amended): addCard never fails; it always constructs a fresh
default card and stores it under the given id, silently overwriting any
existing card with that id, while every other card and all sessions are
untouched. -/
theorem addCard_overwrites (m : StudyScheduler) (id : String) (now : ℤ) :
    (m.addCard id now).1 = SM2Algorithm.createNewCard id now ∧
    (m.addCard id now).2.cards id = some (SM2Algorithm.createNewCard id now) ∧
    (∀ k, k ≠ id → (m.addCard id now).2.cards k = m.cards k) ∧
    (m.addCard id now).2.sessions = m.sessions := by
  refine ⟨rfl, by simp [StudyScheduler.addCard], fun k hk => ?_, rfl⟩
  simp [StudyScheduler.addCard, hk]

/-- Witness for the amended claim C5: overwriting id `a` leaves the card
stored under the different id `c` untouched. -/
theorem addCard_overwrites_witness :
    (vetM.addCard "a" 7).2.cards "c" = vetM.cards "c" :=
  (addCard_overwrites vetM "a" 7).2.2.1 "c" (by decide)

/-- Counterexample to claim C6: two startSession calls at the same clock
timestamp produce sessions with identical ids, so ids are not unique
across the lifetime of the Manager. -/
theorem session_id_collision :
    (StudyScheduler.empty.startStudySession 5).1.id =
      ((StudyScheduler.empty.startStudySession 5).2.startStudySession 5).1.id := rfl

/-- Claim C6 (amended): every startSession call derives the session id
purely from the clock, as the string `session_` followed by the timestamp,
and stores the open session under that id; ids are therefore distinct only
across calls with distinct timestamps, and a call at an already-used
timestamp reuses that id. -/
theorem session_id_time_derived (m : StudyScheduler) (now : ℤ) :
    (m.startStudySession now).1.id = "session_" ++ toString now ∧
    (m.startStudySession now).2.sessions ("session_" ++ toString now) =
      some (m.startStudySession now).1 := by
  refine ⟨rfl, ?_⟩
  simp [StudyScheduler.startStudySession]

/-- Claim C8: a submitReview or endStudySession call that fails with an
error leaves the scheduler state exactly as it was (all throws happen
before any mutation); addCard never fails at all. -/
theorem failed_call_preserves_state (m : StudyScheduler) (sid : String) (r : ReviewResult)
    (now : ℤ) (e1 e2 : String) :
    ((m.submitReview sid r now).1 = .error e1 → (m.submitReview sid r now).2 = m) ∧
    ((m.endStudySession sid now).1 = .error e2 → (m.endStudySession sid now).2 = m) := by
  constructor
  · intro h
    unfold StudyScheduler.submitReview at h ⊢
    cases hs : m.sessions sid with
    | none => rfl
    | some s =>
      cases hc : m.cards r.flashcardId with
      | none => rfl
      | some card =>
        rw [hs, hc] at h
        exact absurd h (by simp)
  · intro h
    unfold StudyScheduler.endStudySession at h ⊢
    cases hs : m.sessions sid with
    | none => rfl
    | some s =>
      rw [hs] at h
      exact absurd h (by simp)

/-- Witness for claim C8: on an empty scheduler both calls fail and the
state is returned unchanged. -/
theorem failed_call_preserves_state_witness :
    (StudyScheduler.empty.submitReview "s" rQ5 0).2 = StudyScheduler.empty ∧
    (StudyScheduler.empty.endStudySession "s" 0).2 = StudyScheduler.empty :=
  ⟨(failed_call_preserves_state StudyScheduler.empty "s" rQ5 0
      ("Study session " ++ "s" ++ " not found")
      ("Study session " ++ "s" ++ " not found")).1 rfl,
    (failed_call_preserves_state StudyScheduler.empty "s" rQ5 0
      ("Study session " ++ "s" ++ " not found")
      ("Study session " ++ "s" ++ " not found")).2 rfl⟩

/-- Claim C10: when submitReview succeeds on a scheduler whose card map is
key-consistent (the id of each stored card equals its key), every card other
than the reviewed one is unchanged, no card is added or removed, and the
returned updated card keeps the id of the reviewed card. -/
theorem submitReview_frame (m : StudyScheduler) (sid : String) (r : ReviewResult) (now : ℤ)
    (uc : SRSCard) (s2 : StudySession)
    (hkey : ∀ k c, m.cards k = some c → c.id = k)
    (h : (m.submitReview sid r now).1 = .ok (uc, s2)) :
    (∀ k, k ≠ r.flashcardId → (m.submitReview sid r now).2.cards k = m.cards k) ∧
    (∀ k, ((m.submitReview sid r now).2.cards k).isSome = (m.cards k).isSome) ∧
    uc.id = r.flashcardId := by
  unfold StudyScheduler.submitReview at h ⊢
  cases hs : m.sessions sid with
  | none => rw [hs] at h; exact absurd h (by simp)
  | some s =>
    cases hc : m.cards r.flashcardId with
    | none => rw [hs, hc] at h; exact absurd h (by simp)
    | some card =>
      have hid : card.id = r.flashcardId := hkey _ _ hc
      simp only [hs, hc, Except.ok.injEq, Prod.mk.injEq] at h
      obtain ⟨huc, hs2⟩ := h
      simp only [hs, hc]
      refine ⟨?_, ?_, ?_⟩
      · intro k hk
        simp [hid, hk]
      · intro k
        by_cases hk : k = r.flashcardId
        · subst hk
          simp [hid, hc]
        · simp [hid, hk]
      · rw [← huc]
        simp [applyUpdate, hid]

/-- Witness for claim C10 on the one-card scheduler: the card stored under
an unrelated id is unchanged and the reviewed slot stays occupied. -/
theorem submitReview_frame_witness :
    (oneCardM.submitReview "s" rQ5 0).2.cards "z" = oneCardM.cards "z" ∧
    ((oneCardM.submitReview "s" rQ5 0).2.cards "c").isSome =
      (oneCardM.cards "c").isSome := by
  have h := submitReview_frame oneCardM "s" rQ5 0
    (applyUpdate (SM2Algorithm.createNewCard "c" 0)
      (SM2Algorithm.calculateNext (SM2Algorithm.createNewCard "c" 0) rQ5.quality 0))
    { openS with
      results := openS.results ++ [rQ5]
      cardsReviewed := openS.cardsReviewed + 1
      cardsCorrect := openS.cardsCorrect + (if rQ5.correct then 1 else 0) }
    (fun k c hx => by
      by_cases hk : k = "c"
      · subst hk
        simp only [oneCardM, if_pos rfl] at hx
        cases hx
        rfl
      · simp only [oneCardM, if_neg hk] at hx
        cases hx)
    rfl
  exact ⟨h.1 "z" (by decide), h.2.1 "c"⟩

end SRS
